import Mathlib

/-!
Shallow embedding of `contrib/scripts/orphan-clean-up/orphan_cleanup.py`.

JSON values produced by `json.loads` are modelled by `JVal`; Python dict
lookups (`d.get`), truthiness (`if not x`, `x or y`) and stringification
(`str(x)`) are modelled by `pyGet`, `truthy`, `pyOr` and `pyStr`.  The
network is abstracted: the parsed fetch payload is an input, and the
outcome of each DELETE request is an oracle from the request URL to
success or failure.  `main` returns the full observable outcome of a run:
exit code or uncaught exception, the list of DELETE request URLs issued,
the captured report rows, the written CSV content, and the log events.
-/

/-- A JSON value, as produced by `json.loads`.  Numbers are modelled as
integers (no claim involves fractional numbers). -/
inductive JVal where
  | null : JVal
  | bool : Bool → JVal
  | num : Int → JVal
  | str : String → JVal
  | arr : List JVal → JVal
  | obj : List (String × JVal) → JVal
deriving Repr

/-- Python exceptions that can escape the code under study.  Only
`AttributeError` (calling `.get` on a non-dict) is ever raised uncaught. -/
inductive PyExc where
  | attributeError : PyExc
deriving Repr, DecidableEq

/-- Python truthiness of a JSON value (`bool(x)`). -/
def truthy : JVal → Bool
  | .null => false
  | .bool b => b
  | .num n => n != 0
  | .str s => !s.isEmpty
  | .arr xs => !xs.isEmpty
  | .obj kvs => !kvs.isEmpty

/-- `d.get(k, dflt)`: raises `AttributeError` when `d` is not a dict. -/
def pyGet (v : JVal) (k : String) (dflt : JVal) : Except PyExc JVal :=
  match v with
  | .obj kvs => .ok (((kvs.lookup k).getD dflt))
  | _ => .error .attributeError

/-- Python `a or b` on JSON values (both already evaluated). -/
def pyOr (a b : JVal) : JVal :=
  if truthy a then a else b

/-- The single-quote character used by Python `repr` of strings. -/
def pyQuote : String := String.singleton (Char.ofNat 39)

mutual

/-- Python `repr()` of a JSON value (string escaping inside quotes is not
modelled; no claim depends on it). -/
def pyRepr : JVal → String
  | .null => "None"
  | .bool true => "True"
  | .bool false => "False"
  | .num n => toString n
  | .str s => pyQuote ++ s ++ pyQuote
  | .arr xs => "[" ++ String.intercalate ", " (pyReprList xs) ++ "]"
  | .obj kvs => "\x7b" ++ String.intercalate ", " (pyReprPairs kvs) ++ "\x7d"

/-- `repr` of the elements of a Python list. -/
def pyReprList : List JVal → List String
  | [] => []
  | x :: xs => pyRepr x :: pyReprList xs

/-- `repr` of the key/value pairs of a Python dict. -/
def pyReprPairs : List (String × JVal) → List String
  | [] => []
  | (k, v) :: kvs => (pyQuote ++ k ++ pyQuote ++ ": " ++ pyRepr v) :: pyReprPairs kvs

end

/-- Python `str()` of a JSON value. -/
def pyStr : JVal → String
  | .str s => s
  | v => pyRepr v

/-- Python `base_url.rstrip("/")`. -/
def rstripSlashes (s : String) : String :=
  String.mk ((s.data.reverse.dropWhile (fun c => c == Char.ofNat 47)).reverse)

/-- A captured CSV report row, the result of `build_entity_row`. -/
structure Row where
  name : String
  kind : String
  owner : String
  tags : String
  location : String
deriving Repr, DecidableEq

/-- Line 62: `metadata = entity.get("metadata", {}) or {}`. -/
def metadataOf (entity : JVal) : Except PyExc JVal :=
  (pyGet entity "metadata" (.obj [])).map (fun v => pyOr v (.obj []))

/-- Line 63: `spec = entity.get("spec", {}) or {}`. -/
def specOf (entity : JVal) : Except PyExc JVal :=
  (pyGet entity "spec" (.obj [])).map (fun v => pyOr v (.obj []))

/-- Line 64: `annotations = metadata.get("annotations", {}) or {}`. -/
def annotationsOfMd (metadata : JVal) : Except PyExc JVal :=
  (pyGet metadata "annotations" (.obj [])).map (fun v => pyOr v (.obj []))

/-- Line 68: `spec.get("owner") or annotations.get("backstage.io/owner")
or annotations.get("backstage.io/owned-by") or "<unknown>"`, with
Python's short-circuit evaluation (a later `.get` runs only when every
earlier operand is falsy). -/
def ownerChain (spec anns : JVal) : Except PyExc JVal :=
  match pyGet spec "owner" .null with
  | .error e => .error e
  | .ok v1 =>
  if truthy v1 then .ok v1 else
  match pyGet anns "backstage.io/owner" .null with
  | .error e => .error e
  | .ok v2 =>
  if truthy v2 then .ok v2 else
  match pyGet anns "backstage.io/owned-by" .null with
  | .error e => .error e
  | .ok v3 =>
  if truthy v3 then .ok v3 else .ok (.str "<unknown>")

/-- Lines 71-76: the location fallback chain over the annotations dict,
with short-circuit evaluation. -/
def locationChain (anns : JVal) : Except PyExc JVal :=
  match pyGet anns "backstage.io/origin-location" .null with
  | .error e => .error e
  | .ok v1 =>
  if truthy v1 then .ok v1 else
  match pyGet anns "backstage.io/managed-by-location" .null with
  | .error e => .error e
  | .ok v2 =>
  if truthy v2 then .ok v2 else
  match pyGet anns "backstage.io/location" .null with
  | .error e => .error e
  | .ok v3 =>
  if truthy v3 then .ok v3 else .ok (.str "<unknown>")

/-- Insert `a` into `l` immediately before the first element `x` with
`le a x`.  Helper for `stableSort`. -/
def insertSorted (le : α → α → Bool) (a : α) : List α → List α
  | [] => [a]
  | x :: xs => if le a x then a :: x :: xs else x :: insertSorted le a xs

/-- Python `sorted`: a stable sort.  A stable sort with respect to a total
transitive comparison is unique, so this structurally recursive stable
insertion sort is extensionally the same function as Python's stable
merge sort; its sortedness, stability and permutation properties are
proved below. -/
def stableSort (le : α → α → Bool) (l : List α) : List α :=
  l.foldr (insertSorted le) []

/-- Lexicographic strict comparison of char lists by code point, the
order Python uses on strings (proved below to agree with Lean's `List`
order on `Char`). -/
def charListLt : List Char → List Char → Bool
  | _, [] => false
  | [], _ :: _ => true
  | a :: as, b :: bs => decide (a < b) || (decide (a = b) && charListLt as bs)

/-- Python `a < b` on strings: code-point lexicographic. -/
def strLtB (a b : String) : Bool := charListLt a.data b.data

/-- Python `a <= b` on strings (a total order, so `!(b < a)`). -/
def strLeB (a b : String) : Bool := !strLtB b a

/-- Line 70: `";".join(sorted(str(tag) for tag in tags_raw)) if
isinstance(tags_raw, list) else str(tags_raw)`. -/
def tagsOf (tags_raw : JVal) : String :=
  match tags_raw with
  | .arr xs => String.intercalate ";" (stableSort strLeB (xs.map pyStr))
  | v => pyStr v

/-- `build_entity_row(entity)` (lines 61-84).  Raises `AttributeError`
exactly where the Python would (a `.get` on a non-dict value). -/
def build_entity_row (entity : JVal) : Except PyExc Row :=
  match metadataOf entity with
  | .error e => .error e
  | .ok metadata =>
  match specOf entity with
  | .error e => .error e
  | .ok spec =>
  match annotationsOfMd metadata with
  | .error e => .error e
  | .ok anns =>
  match pyGet metadata "name" (.str "<unknown>") with
  | .error e => .error e
  | .ok name =>
  match pyGet entity "kind" (.str "<unknown>") with
  | .error e => .error e
  | .ok kind =>
  match ownerChain spec anns with
  | .error e => .error e
  | .ok owner =>
  match pyGet metadata "tags" .null with
  | .error e => .error e
  | .ok t0 =>
  let tags_raw := pyOr t0 (.arr [])
  match locationChain anns with
  | .error e => .error e
  | .ok loc =>
  .ok { name := pyStr name, kind := pyStr kind, owner := pyStr owner,
        tags := tagsOf tags_raw, location := pyStr loc }

/-- CSV header, the `fieldnames` of `write_csv` (line 94). -/
def fieldnames : List String := ["name", "kind", "owner", "tags", "location"]

/-- The sort key comparison of `write_csv` line 92: Python tuple
comparison on `(row["name"].lower(), row["kind"].lower())`. -/
def rowLe (a b : Row) : Bool :=
  strLtB a.name.toLower b.name.toLower ||
    (decide (a.name.toLower = b.name.toLower) && strLeB a.kind.toLower b.kind.toLower)

/-- `sorted(rows, key=lambda row: (row["name"].lower(), row["kind"].lower()))`:
Python `sorted`, a stable sort over the `rowLe` comparison. -/
def sortRows (rows : List Row) : List Row :=
  stableSort rowLe rows

/-- The content of the CSV file written by `write_csv` (lines 87-98), as
a list of records: header first, then one record per sorted row.  The
timestamped filename and CSV quoting are not modelled. -/
def write_csv (rows : List Row) : List (List String) :=
  fieldnames :: (sortRows rows).map (fun r => [r.name, r.kind, r.owner, r.tags, r.location])

/-- Python type name, as used in the `fetch_orphans` error message. -/
def pyTypeName : JVal → String
  | .null => "NoneType"
  | .bool _ => "bool"
  | .num _ => "int"
  | .str _ => "str"
  | .arr _ => "list"
  | .obj _ => "dict"

/-- Outcome of the GET request and of JSON decoding, the part of
`fetch_orphans` played by the network (lines 30-41). -/
inductive FetchInput where
  | netError (msg : String)
  | badJSON (msg : String)
  | parsed (v : JVal)

/-- `fetch_orphans` (lines 27-45) after the network interaction: HTTP and
URL errors and JSON decode errors become RuntimeError, and so does a
parsed top-level value that is not a list (lines 43-44). -/
def fetch_orphans : FetchInput → Except String (List JVal)
  | .netError msg => .error ("Failed to fetch orphans: " ++ msg)
  | .badJSON msg => .error ("Invalid JSON: " ++ msg)
  | .parsed v =>
    match v with
    | .arr xs => .ok xs
    | v => .error ("Unexpected response format (expected list, got " ++ pyTypeName v ++ ")")

/-- The DELETE request URL formed by `delete_orphan` line 49 (the
f-string applies `str()` to the uid). -/
def delete_url (base_url : String) (uid : JVal) : String :=
  base_url ++ "/api/catalog/entities/by-uid/" ++ pyStr uid

/-- Log messages the script prints during the entity loop. -/
inductive LogEvent where
  | skip (name kind : String)
  | dryIntent (name kind : String)
  | deleting (name kind : String)
  | deleteFailed (uid : String)
deriving Repr, DecidableEq

/-- State accumulated by the entity loop in `main`: captured CSV rows,
the URLs of DELETE requests issued, and log messages. -/
structure St where
  rows : List Row := []
  deletes : List String := []
  logs : List LogEvent := []
deriving Repr, DecidableEq

/-- The CLI arguments of the script (lines 101-126). -/
structure Args where
  base_url : String := "http://localhost:7007"
  dry_run : Bool := false
  csv_output : Bool := false
deriving Repr, DecidableEq

/-- Line 150: `orphan.get("metadata", {}).get("name", "<unknown>")`. -/
def entityName (o : JVal) : Except PyExc JVal :=
  match pyGet o "metadata" (.obj []) with
  | .error e => .error e
  | .ok md => pyGet md "name" (.str "<unknown>")

/-- Line 151: `orphan.get("kind", "<unknown>")`. -/
def entityKind (o : JVal) : Except PyExc JVal :=
  pyGet o "kind" (.str "<unknown>")

/-- Line 152: `orphan.get("metadata", {}).get("uid")` (`None` when the
key is absent). -/
def entityUid (o : JVal) : Except PyExc JVal :=
  match pyGet o "metadata" (.obj []) with
  | .error e => .error e
  | .ok md => pyGet md "uid" .null

/-- Line 157: `build_entity_row(orphan) if args.csv_output else None`. -/
def rowOpt (csv_output : Bool) (o : JVal) : Except PyExc (Option Row) :=
  if csv_output then
    match build_entity_row o with
    | .error e => .error e
    | .ok r => .ok (some r)
  else .ok none

/-- One iteration of the entity loop (lines 148-173).  `dOk` is the
network oracle: whether the DELETE request at a given URL succeeds
(status below 300).  A failed delete raises RuntimeError inside
`delete_orphan`, which the loop catches and logs; an `AttributeError`
from field extraction is not caught and aborts the run. -/
def processOrphan (args : Args) (dOk : String → Bool) (base_url : String)
    (st : St) (orphan : JVal) : Except PyExc St :=
  match entityName orphan with
  | .error e => .error e
  | .ok name =>
  match entityKind orphan with
  | .error e => .error e
  | .ok kind =>
  match entityUid orphan with
  | .error e => .error e
  | .ok uid =>
  if truthy uid = false then
    .ok { st with logs := st.logs ++ [.skip (pyStr name) (pyStr kind)] }
  else
  match rowOpt args.csv_output orphan with
  | .error e => .error e
  | .ok row =>
  if args.dry_run then
    .ok { st with logs := st.logs ++ [.dryIntent (pyStr name) (pyStr kind)],
                  rows := st.rows ++ row.toList }
  else
    let url := delete_url base_url uid
    if dOk url then
      .ok { st with logs := st.logs ++ [.deleting (pyStr name) (pyStr kind)],
                    deletes := st.deletes ++ [url],
                    rows := st.rows ++ row.toList }
    else
      .ok { st with logs := st.logs ++ [.deleting (pyStr name) (pyStr kind),
                                        .deleteFailed (pyStr uid)],
                    deletes := st.deletes ++ [url] }

/-- The entity loop: processes entities in fetch order, stopping early
only when an uncaught exception is raised; returns the state reached and
the exception, if any. -/
def runLoop (args : Args) (dOk : String → Bool) (base_url : String) :
    List JVal → St → St × Option PyExc
  | [], st => (st, none)
  | o :: os, st =>
    match processOrphan args dOk base_url st o with
    | .ok st2 => runLoop args dOk base_url os st2
    | .error e => (st, some e)

/-- How a run of `main` ended: a `sys.exit` code, or an uncaught
exception. -/
inductive ExitResult where
  | code (n : Nat)
  | exc (e : PyExc)
deriving Repr, DecidableEq

/-- Everything observable about one run of `main`. -/
structure MainOutcome where
  exit : ExitResult
  deletes : List String
  rows : List Row
  csv : Option (List (List String))
  logs : List LogEvent
  fetchError : Option String
deriving Repr, DecidableEq

/-- `main` (lines 101-179), named `mainRun` since Lean reserves `main`.  The network is abstracted by `fetch` (the
outcome of the GET request) and `dOk` (the outcome of each DELETE
request, by URL).  Mirrors the source: fetch failure prints the error and
returns 1; an empty list returns 0 before any CSV is written; otherwise
the loop runs and, if it completes, `write_csv` runs when `--csv-output`
was passed and the function returns 0. -/
def mainRun (args : Args) (dOk : String → Bool) (fetch : FetchInput) : MainOutcome :=
  let base_url := rstripSlashes args.base_url
  match fetch_orphans fetch with
  | .error msg =>
      { exit := .code 1, deletes := [], rows := [], csv := none,
        logs := [], fetchError := some msg }
  | .ok orphans =>
    if orphans.isEmpty then
      { exit := .code 0, deletes := [], rows := [], csv := none,
        logs := [], fetchError := none }
    else
      match runLoop args dOk base_url orphans {} with
      | (st, some e) =>
          { exit := .exc e, deletes := st.deletes, rows := st.rows,
            csv := none, logs := st.logs, fetchError := none }
      | (st, none) =>
          { exit := .code 0, deletes := st.deletes, rows := st.rows,
            csv := if args.csv_output then some (write_csv st.rows) else none,
            logs := st.logs, fetchError := none }

/-- Whether a JSON value is a dict (`.get` on it cannot raise). -/
def isObjB : JVal → Bool
  | .obj _ => true
  | _ => false

/-- A value `v` is safe under the idiom `(v or {}).get(...)`: either falsy
(so the fallback `{}` is used) or itself a dict. -/
def safeUnder (v : JVal) : Bool :=
  !truthy v || isObjB v

/-- A fetched entity on which the per-entity loop body raises no
exception: a dict whose `metadata`, when present, is a dict, and — when
CSV reporting is enabled, so that `build_entity_row` runs — whose `spec`
and `metadata.annotations` values, when present, are falsy or dicts. -/
def wellShaped (csv_output : Bool) (o : JVal) : Bool :=
  match o with
  | .obj kvs =>
    (match kvs.lookup "metadata" with
     | none => true
     | some (.obj md) =>
        !csv_output ||
          (match md.lookup "annotations" with
           | none => true
           | some v => safeUnder v)
     | some _ => false) &&
    (!csv_output ||
      (match kvs.lookup "spec" with
       | none => true
       | some v => safeUnder v))
  | _ => false

/-- Whether the loop captures a CSV row for a given entity: its uid
resolves to a truthy value and either the run is a dry run or the DELETE
request for that uid succeeds. -/
def entCounted (args : Args) (dOk : String → Bool) (base_url : String) (o : JVal) : Bool :=
  match entityUid o with
  | .error _ => false
  | .ok uid => truthy uid && (args.dry_run || dOk (delete_url base_url uid))

/-- The owner fallback chain as the amended claim states it: the first
truthy value among `spec.owner`, the `backstage.io/owner` annotation and
the `backstage.io/owned-by` annotation, else the sentinel. -/
def ownerSpecAmended (so ao aob : JVal) : JVal :=
  if truthy so then so
  else if truthy ao then ao
  else if truthy aob then aob
  else .str "<unknown>"

/-- The tags field as the amended claim states it: a falsy `metadata.tags`
value (absent, null, false, 0, empty string, empty list, empty dict)
yields the empty string; a truthy list is element-wise stringified,
sorted and joined with ";"; any other truthy value is stringified
as-is. -/
def tagsSpecAmended (v : JVal) : String :=
  if truthy v then
    match v with
    | .arr xs => String.intercalate ";" (stableSort strLeB (xs.map pyStr))
    | w => pyStr w
  else ""

lemma pyGet_obj (kvs : List (String × JVal)) (k : String) (d : JVal) :
    pyGet (.obj kvs) k d = .ok ((kvs.lookup k).getD d) := rfl

/-- Claim C3: if the fetch response parses as JSON but the top-level value
is not an array, the run fails with a fetch error, the exit code is 1,
and no DELETE request is ever issued (and no CSV is written). -/
theorem claim3_non_list_fetch_fails (args : Args) (dOk : String → Bool) (v : JVal)
    (h : ∀ xs, v ≠ JVal.arr xs) :
    (mainRun args dOk (.parsed v)).exit = .code 1 ∧
    (mainRun args dOk (.parsed v)).deletes = [] ∧
    (mainRun args dOk (.parsed v)).csv = none ∧
    (mainRun args dOk (.parsed v)).fetchError.isSome = true := by
  cases v
  case arr xs => exact absurd rfl (h xs)
  all_goals simp [mainRun, fetch_orphans]

/-- Witness for C3: a top-level JSON object makes the run exit 1 with a
fetch error and no deletes. -/
theorem claim3_witness :
    (mainRun {} (fun _ => true) (.parsed (.obj []))).exit = .code 1 ∧
    (mainRun {} (fun _ => true) (.parsed (.obj []))).deletes = [] ∧
    (mainRun {} (fun _ => true) (.parsed (.obj []))).csv = none ∧
    (mainRun {} (fun _ => true) (.parsed (.obj []))).fetchError.isSome = true :=
  claim3_non_list_fetch_fails {} (fun _ => true) (.obj []) (fun _ hx => JVal.noConfusion hx)

/-- Claim C2: an entity whose `metadata` dict has no `uid` key is skipped:
the loop step logs the skip (naming entity and kind), issues no DELETE,
captures no report row, and continues with the next entity (the step
returns normally, with the state otherwise unchanged). -/
theorem claim2_missing_uid_skipped (args : Args) (dOk : String → Bool) (base_url : String)
    (st : St) (o : JVal) (md : List (String × JVal)) (n k : JVal)
    (h1 : pyGet o "metadata" (.obj []) = .ok (.obj md))
    (h2 : md.lookup "uid" = none)
    (h3 : entityName o = .ok n)
    (h4 : entityKind o = .ok k) :
    processOrphan args dOk base_url st o =
      .ok { st with logs := st.logs ++ [.skip (pyStr n) (pyStr k)] } := by
  have hu : entityUid o = .ok .null := by
    unfold entityUid
    rw [h1]
    simp [pyGet_obj, h2]
  unfold processOrphan
  rw [h3, h4, hu]
  simp [truthy]

/-- Witness for C2: a concrete entity with metadata but no uid is skipped
with a log line and an otherwise unchanged state. -/
theorem claim2_witness :
    processOrphan { csv_output := true } (fun _ => true) "http://localhost:7007" {}
        (.obj [("metadata", .obj [("name", .str "a")]), ("kind", .str "Component")]) =
      .ok { logs := [.skip "a" "Component"] } := by
  simpa using claim2_missing_uid_skipped { csv_output := true } (fun _ => true)
    "http://localhost:7007" {}
    (.obj [("metadata", .obj [("name", .str "a")]), ("kind", .str "Component")])
    [("name", .str "a")] (.str "a") (.str "Component") rfl rfl rfl rfl

/-- Claim C10: an entity whose `metadata.uid` is present but falsy (null,
empty string, 0, or false) is treated exactly like a missing uid: skipped
with a warning, no DELETE request formed, no report row captured, and the
loop continues. -/
theorem claim10_falsy_uid_skipped (args : Args) (dOk : String → Bool) (base_url : String)
    (st : St) (o : JVal) (md : List (String × JVal)) (u n k : JVal)
    (h1 : pyGet o "metadata" (.obj []) = .ok (.obj md))
    (h2 : md.lookup "uid" = some u)
    (h5 : truthy u = false)
    (h3 : entityName o = .ok n)
    (h4 : entityKind o = .ok k) :
    processOrphan args dOk base_url st o =
      .ok { st with logs := st.logs ++ [.skip (pyStr n) (pyStr k)] } := by
  have hu : entityUid o = .ok u := by
    unfold entityUid
    rw [h1]
    simp [pyGet_obj, h2]
  unfold processOrphan
  rw [h3, h4, hu]
  simp [h5]

/-- Witness for C10: an entity with `uid` present as the empty string is
skipped exactly like one without a uid. -/
theorem claim10_witness :
    processOrphan { csv_output := true } (fun _ => true) "http://localhost:7007" {}
        (.obj [("metadata", .obj [("name", .str "a"), ("uid", .str "")]), ("kind", .str "Component")]) =
      .ok { logs := [.skip "a" "Component"] } := by
  simpa using claim10_falsy_uid_skipped { csv_output := true } (fun _ => true)
    "http://localhost:7007" {}
    (.obj [("metadata", .obj [("name", .str "a"), ("uid", .str "")]), ("kind", .str "Component")])
    [("name", .str "a"), ("uid", .str "")] (.str "") (.str "a") (.str "Component") rfl rfl rfl rfl rfl

lemma processOrphan_dry_deletes (args : Args) (dOk : String → Bool) (base_url : String)
    (st : St) (o : JVal) (st2 : St)
    (hdry : args.dry_run = true)
    (h : processOrphan args dOk base_url st o = .ok st2) :
    st2.deletes = st.deletes := by
  unfold processOrphan at h
  repeat' split at h
  all_goals try exact Except.noConfusion h
  all_goals (injection h with h2; subst h2; simp)

lemma runLoop_dry_deletes (args : Args) (dOk : String → Bool) (base_url : String)
    (hdry : args.dry_run = true) :
    ∀ (os : List JVal) (st : St), ((runLoop args dOk base_url os st).1).deletes = st.deletes
  | [], _ => rfl
  | o :: os, st => by
    unfold runLoop
    cases h : processOrphan args dOk base_url st o with
    | ok st2 =>
        simpa [runLoop_dry_deletes args dOk base_url hdry os st2] using
          processOrphan_dry_deletes args dOk base_url st o st2 hdry h
    | error e => rfl

/-- Claim C1: in dry-run mode no DELETE request is ever issued, for every
fetch outcome and every entity list; and for each entity whose fields
resolve and whose uid is truthy, the loop logs the dry-run intent naming
entity and kind and, when reporting is enabled, captures the report row
(`r` is `some` row exactly when `--csv-output` was passed). -/
theorem claim1_dry_run_no_delete (args : Args) (h : args.dry_run = true) :
    (∀ (dOk : String → Bool) (fetch : FetchInput), (mainRun args dOk fetch).deletes = []) ∧
    (∀ (dOk : String → Bool) (base_url : String) (st : St) (o : JVal) (n k u : JVal)
       (r : Option Row),
       entityName o = .ok n → entityKind o = .ok k → entityUid o = .ok u →
       truthy u = true → rowOpt args.csv_output o = .ok r →
       processOrphan args dOk base_url st o =
         .ok { st with logs := st.logs ++ [.dryIntent (pyStr n) (pyStr k)],
                       rows := st.rows ++ r.toList }) := by
  constructor
  · intro dOk fetch
    unfold mainRun
    cases hf : fetch_orphans fetch with
    | error msg => simp
    | ok orphans =>
      by_cases he : orphans.isEmpty
      · simp [he]
      · rcases hr : runLoop args dOk (rstripSlashes args.base_url) orphans {} with ⟨st, e?⟩
        have hd : st.deletes = [] := by
          have h2 := runLoop_dry_deletes args dOk (rstripSlashes args.base_url) h orphans {}
          rw [hr] at h2
          exact h2
        cases e? <;> simp [he, hr, hd]
  · intro dOk base_url st o n k u r h1 h2 h3 h4 h5
    unfold processOrphan
    rw [h1, h2, h3]
    simp [h4, h5, h]

/-- Witness for C1: a dry run over one concrete entity issues no DELETE,
and the loop step logs the intent and captures the row. -/
theorem claim1_witness :
    (mainRun { dry_run := true, csv_output := true } (fun _ => false)
        (.parsed (.arr [.obj [("kind", .str "Component"),
          ("metadata", .obj [("name", .str "svc1"), ("uid", .str "u1")])]]))).deletes = [] ∧
    processOrphan { dry_run := true, csv_output := true } (fun _ => false) "http://localhost:7007" {}
        (.obj [("kind", .str "Component"),
          ("metadata", .obj [("name", .str "svc1"), ("uid", .str "u1")])]) =
      .ok { logs := [.dryIntent "svc1" "Component"],
            rows := [{ name := "svc1", kind := "Component", owner := "<unknown>",
                       tags := "", location := "<unknown>" }] } := by
  constructor
  · exact (claim1_dry_run_no_delete { dry_run := true, csv_output := true } rfl).1
      (fun _ => false)
      (.parsed (.arr [.obj [("kind", .str "Component"),
        ("metadata", .obj [("name", .str "svc1"), ("uid", .str "u1")])]]))
  · simpa using (claim1_dry_run_no_delete { dry_run := true, csv_output := true } rfl).2
      (fun _ => false) "http://localhost:7007" {}
      (.obj [("kind", .str "Component"),
        ("metadata", .obj [("name", .str "svc1"), ("uid", .str "u1")])])
      (.str "svc1") (.str "Component") (.str "u1")
      (some { name := "svc1", kind := "Component", owner := "<unknown>",
              tags := "", location := "<unknown>" })
      rfl rfl rfl rfl rfl

lemma insertSorted_perm (le : α → α → Bool) (a : α) :
    ∀ l : List α, (insertSorted le a l).Perm (a :: l)
  | [] => List.Perm.refl _
  | x :: xs => by
    unfold insertSorted
    by_cases h : le a x
    · simp [h]
    · simp only [h, if_false]
      exact ((insertSorted_perm le a xs).cons x).trans (List.Perm.swap a x xs)

lemma mem_insertSorted (le : α → α → Bool) (a y : α) (l : List α) :
    y ∈ insertSorted le a l ↔ y = a ∨ y ∈ l := by
  rw [(insertSorted_perm le a l).mem_iff]
  simp

lemma insertSorted_pairwise (le : α → α → Bool)
    (htrans : ∀ a b c, le a b = true → le b c = true → le a c = true)
    (htotal : ∀ a b, le a b || le b a)
    (a : α) :
    ∀ l : List α, l.Pairwise (fun x y => le x y = true) →
      (insertSorted le a l).Pairwise (fun x y => le x y = true)
  | [], _ => by simp [insertSorted]
  | x :: xs, hl => by
    rcases List.pairwise_cons.mp hl with ⟨hx, hxs⟩
    unfold insertSorted
    by_cases h : le a x
    · simp only [h, if_true]
      refine List.pairwise_cons.mpr ⟨?_, hl⟩
      intro y hy
      rcases List.mem_cons.mp hy with rfl | hy2
      · exact h
      · exact htrans a x y h (hx y hy2)
    · simp only [h, if_false]
      refine List.pairwise_cons.mpr ⟨?_, insertSorted_pairwise le htrans htotal a xs hxs⟩
      intro y hy
      rcases (mem_insertSorted le a y xs).mp hy with rfl | hy2
      · rcases (Bool.or_eq_true _ _).mp (htotal y x) with h1 | h1
        · exact absurd h1 h
        · exact h1
      · exact hx y hy2

lemma stableSort_perm (le : α → α → Bool) :
    ∀ l : List α, (stableSort le l).Perm l
  | [] => List.Perm.refl _
  | x :: xs => by
    unfold stableSort
    simp only [List.foldr_cons]
    exact (insertSorted_perm le x _).trans ((stableSort_perm le xs).cons x)

lemma stableSort_pairwise (le : α → α → Bool)
    (htrans : ∀ a b c, le a b = true → le b c = true → le a c = true)
    (htotal : ∀ a b, le a b || le b a) :
    ∀ l : List α, (stableSort le l).Pairwise (fun x y => le x y = true)
  | [] => by simp [stableSort]
  | x :: xs => by
    unfold stableSort
    simp only [List.foldr_cons]
    exact insertSorted_pairwise le htrans htotal x _ (stableSort_pairwise le htrans htotal xs)

lemma filter_insertSorted (le : α → α → Bool) (p : α → Bool)
    (hp : ∀ x y, p x = true → p y = true → le x y = true ∧ le y x = true)
    (a : α) :
    ∀ l : List α, (insertSorted le a l).filter p =
      if p a then a :: l.filter p else l.filter p
  | [] => by
    by_cases ha : p a <;> simp [insertSorted, List.filter, ha]
  | x :: xs => by
    unfold insertSorted
    by_cases h : le a x
    · simp only [h, if_true]
      by_cases ha : p a <;> simp [List.filter_cons, ha]
    · simp only [h, if_false]
      by_cases hx : p x
      · by_cases ha : p a
        · exact absurd (hp a x ha hx).1 h
        · simp [List.filter_cons, hx, ha, filter_insertSorted le p hp a xs]
      · simp [List.filter_cons, hx, filter_insertSorted le p hp a xs]

lemma filter_stableSort (le : α → α → Bool) (p : α → Bool)
    (hp : ∀ x y, p x = true → p y = true → le x y = true ∧ le y x = true) :
    ∀ l : List α, (stableSort le l).filter p = l.filter p
  | [] => rfl
  | x :: xs => by
    have ih := filter_stableSort le p hp xs
    unfold stableSort at ih ⊢
    simp only [List.foldr_cons]
    rw [filter_insertSorted le p hp x _]
    by_cases hx : p x <;> simp [hx, List.filter_cons, ih]

lemma charListLt_iff : ∀ as bs : List Char, charListLt as bs = true ↔ as < bs
  | as, [] => by
    constructor
    · intro h
      cases as <;> simp [charListLt] at h
    · intro h
      cases h
  | [], _ :: _ => by
    simp only [charListLt, true_iff]
    exact List.Lex.nil
  | a :: as, b :: bs => by
    simp only [charListLt, Bool.or_eq_true, Bool.and_eq_true, decide_eq_true_eq]
    constructor
    · rintro (h | ⟨rfl, h⟩)
      · exact List.Lex.rel h
      · exact List.Lex.cons ((charListLt_iff as bs).mp h)
    · intro h
      cases h with
      | cons h => exact Or.inr ⟨rfl, (charListLt_iff as bs).mpr h⟩
      | rel h => exact Or.inl h

lemma strLtB_iff (a b : String) : strLtB a b = true ↔ a < b := by
  rw [String.lt_iff_toList_lt]
  exact charListLt_iff a.data b.data

lemma strLeB_iff (a b : String) : strLeB a b = true ↔ a ≤ b := by
  constructor
  · intro h
    refine not_lt.mp (fun hlt => ?_)
    have h2 := (strLtB_iff b a).mpr hlt
    simp [strLeB, h2] at h
  · intro h
    have h2 : strLtB b a = false := by
      rcases hx : strLtB b a with _ | _
      · rfl
      · exact absurd ((strLtB_iff b a).mp hx) (not_lt.mpr h)
    simp [strLeB, h2]

lemma rowLe_total (a b : Row) : rowLe a b || rowLe b a := by
  simp only [rowLe, Bool.or_eq_true, Bool.and_eq_true, decide_eq_true_eq,
    strLtB_iff, strLeB_iff]
  rcases lt_trichotomy a.name.toLower b.name.toLower with h | h | h
  · exact Or.inl (Or.inl h)
  · rcases le_total a.kind.toLower b.kind.toLower with h2 | h2
    · exact Or.inl (Or.inr ⟨h, h2⟩)
    · exact Or.inr (Or.inr ⟨h.symm, h2⟩)
  · exact Or.inr (Or.inl h)

lemma rowLe_trans (a b c : Row) (hab : rowLe a b = true) (hbc : rowLe b c = true) :
    rowLe a c = true := by
  simp only [rowLe, Bool.or_eq_true, Bool.and_eq_true, decide_eq_true_eq,
    strLtB_iff, strLeB_iff] at *
  rcases hab with h1 | ⟨h1, h2⟩ <;> rcases hbc with h3 | ⟨h3, h4⟩
  · exact Or.inl (lt_trans h1 h3)
  · exact Or.inl (h3 ▸ h1)
  · exact Or.inl (h1 ▸ h3)
  · exact Or.inr ⟨h1.trans h3, le_trans h2 h4⟩

/-- Claim C7: the rows written to the CSV are sorted ascending by
lower-cased name, then lower-cased kind (Python tuple comparison on the
lowered pair), the output is a permutation of the captured rows, and the
sort is stable: for every lowered (name, kind) key, the subsequence of
rows with that key is exactly the capture-order subsequence. -/
theorem claim7_rows_sorted_stably (rows : List Row) :
    (sortRows rows).Pairwise (fun a b =>
      a.name.toLower < b.name.toLower ∨
        (a.name.toLower = b.name.toLower ∧ a.kind.toLower ≤ b.kind.toLower)) ∧
    (sortRows rows).Perm rows ∧
    ∀ nm kd : String,
      (sortRows rows).filter (fun r => r.name.toLower == nm && r.kind.toLower == kd) =
        rows.filter (fun r => r.name.toLower == nm && r.kind.toLower == kd) := by
  refine ⟨?_, stableSort_perm rowLe rows, ?_⟩
  · have h := stableSort_pairwise rowLe rowLe_trans rowLe_total rows
    refine h.imp ?_
    intro a b hab
    simpa only [rowLe, Bool.or_eq_true, Bool.and_eq_true, decide_eq_true_eq,
      strLtB_iff, strLeB_iff] using hab
  · intro nm kd
    refine filter_stableSort rowLe _ ?_ rows
    intro x y hx hy
    simp only [Bool.and_eq_true, beq_iff_eq] at hx hy
    constructor <;>
      simp [rowLe, strLeB_iff, hx.1, hx.2, hy.1, hy.2]

lemma strLeB_total (a b : String) : strLeB a b || strLeB b a := by
  simp only [Bool.or_eq_true, strLeB_iff]
  exact le_total a b

lemma strLeB_trans (a b c : String) (h1 : strLeB a b = true) (h2 : strLeB b c = true) :
    strLeB a c = true := by
  simp only [strLeB_iff] at *
  exact le_trans h1 h2

lemma ownerChain_eq (spec anns so ao aob : JVal)
    (hso : pyGet spec "owner" .null = .ok so)
    (hao : pyGet anns "backstage.io/owner" .null = .ok ao)
    (haob : pyGet anns "backstage.io/owned-by" .null = .ok aob) :
    ownerChain spec anns = .ok (ownerSpecAmended so ao aob) := by
  unfold ownerChain ownerSpecAmended
  rw [hso]
  by_cases h1 : truthy so
  · simp [h1]
  · simp only [h1, if_false, Bool.false_eq_true]
    rw [hao]
    by_cases h2 : truthy ao
    · simp [h2]
    · simp only [h2, if_false, Bool.false_eq_true]
      rw [haob]
      by_cases h3 : truthy aob
      · simp [h3]
      · simp [h3]

/-- Claim C8 is false as stated: in this entity `spec.owner` is present
(the empty string), so the claimed fallback chain would report owner `""`,
but the code treats the present-but-falsy value as absent and reports the
annotation value `"team-a"` instead. -/
theorem claim8_counterexample :
    build_entity_row (.obj [("spec", .obj [("owner", .str "")]),
        ("metadata", .obj [("annotations", .obj [("backstage.io/owner", .str "team-a")])])]) =
      .ok { name := "<unknown>", kind := "<unknown>", owner := "team-a",
            tags := "", location := "<unknown>" } ∧
    ("team-a" : String) ≠ "" := by
  exact ⟨rfl, by decide⟩

/-- Claim C8 (amended): the report row's owner is the first *truthy*
value in the chain `spec.owner`, `metadata.annotations["backstage.io/owner"]`,
`metadata.annotations["backstage.io/owned-by"]`, else the sentinel
`"<unknown>"` — presence alone does not stop the fallback, a falsy
present value (null, empty string, 0, false) is passed over. -/
theorem claim8_amended_owner_fallback (entity md spec anns so ao aob : JVal) (r : Row)
    (hmd : metadataOf entity = .ok md)
    (hsp : specOf entity = .ok spec)
    (han : annotationsOfMd md = .ok anns)
    (hso : pyGet spec "owner" .null = .ok so)
    (hao : pyGet anns "backstage.io/owner" .null = .ok ao)
    (haob : pyGet anns "backstage.io/owned-by" .null = .ok aob)
    (hb : build_entity_row entity = .ok r) :
    r.owner = pyStr (ownerSpecAmended so ao aob) := by
  have hoc := ownerChain_eq spec anns so ao aob hso hao haob
  unfold build_entity_row at hb
  simp only [hmd, hsp, han, hoc] at hb
  repeat' split at hb
  all_goals try exact Except.noConfusion hb
  injection hb with h2
  subst h2
  rfl

/-- Witness for the amended C8 at the spec's own example: no `spec.owner`,
annotation `backstage.io/owned-by: "team-x"`, owner resolves to
`"team-x"`. -/
theorem claim8_witness :
    ({ name := "<unknown>", kind := "<unknown>", owner := "team-x",
       tags := "", location := "<unknown>" } : Row).owner =
      pyStr (ownerSpecAmended .null .null (.str "team-x")) :=
  claim8_amended_owner_fallback
    (.obj [("metadata", .obj [("annotations", .obj [("backstage.io/owned-by", .str "team-x")])])])
    (.obj [("annotations", .obj [("backstage.io/owned-by", .str "team-x")])])
    (.obj []) (.obj [("backstage.io/owned-by", .str "team-x")])
    .null .null (.str "team-x")
    { name := "<unknown>", kind := "<unknown>", owner := "team-x",
      tags := "", location := "<unknown>" }
    rfl rfl rfl rfl rfl rfl rfl

lemma tagsOf_pyOr (t0 : JVal) : tagsOf (pyOr t0 (.arr [])) = tagsSpecAmended t0 := by
  unfold tagsOf tagsSpecAmended pyOr
  by_cases h : truthy t0
  · simp only [h, if_true]
  · simp only [h, if_false, Bool.false_eq_true]
    rfl

/-- Claim C9 is false as stated: `metadata.tags` here holds the non-
sequence value `0`, which the claim says is stringified as-is (`"0"`),
but the code's `metadata.get("tags") or []` turns every falsy value into
the empty list, so the row's tags field is `""`. -/
theorem claim9_counterexample :
    build_entity_row (.obj [("metadata", .obj [("tags", .num 0)])]) =
      .ok { name := "<unknown>", kind := "<unknown>", owner := "<unknown>",
            tags := "", location := "<unknown>" } ∧
    pyStr (.num 0) = "0" ∧ ("" : String) ≠ "0" := by
  exact ⟨rfl, rfl, by decide⟩

/-- Claim C9 (amended): the tags field is computed from the raw
`metadata.tags` value `t0` as `tagsSpecAmended`: a falsy value (absent,
null, false, 0, empty string, empty list, empty dict) yields `""`; a
truthy list is element-wise stringified, sorted and joined with `";"`;
any other truthy value is stringified as-is.  The sort really sorts:
for every list of strings it returns an ascending permutation. -/
theorem claim9_amended_tags (entity md t0 : JVal) (r : Row)
    (hmd : metadataOf entity = .ok md)
    (ht : pyGet md "tags" .null = .ok t0)
    (hb : build_entity_row entity = .ok r) :
    r.tags = tagsSpecAmended t0 ∧
    ∀ ys : List String,
      (stableSort strLeB ys).Pairwise (fun a b => a ≤ b) ∧ (stableSort strLeB ys).Perm ys := by
  refine ⟨?_, ?_⟩
  · unfold build_entity_row at hb
    simp only [hmd, ht] at hb
    repeat' split at hb
    all_goals try exact Except.noConfusion hb
    injection hb with h2
    subst h2
    exact tagsOf_pyOr t0
  · intro ys
    refine ⟨?_, stableSort_perm strLeB ys⟩
    have h := stableSort_pairwise strLeB strLeB_trans strLeB_total ys
    refine h.imp ?_
    intro a b hab
    exact (strLeB_iff a b).mp hab

/-- Witness for the amended C9 at the spec's example `["b","a"]`: the
entity's row has tags `"a;b"`, the sorted join. -/
theorem claim9_witness :
    ({ name := "<unknown>", kind := "<unknown>", owner := "<unknown>",
       tags := "a;b", location := "<unknown>" } : Row).tags =
      tagsSpecAmended (.arr [.str "b", .str "a"]) :=
  (claim9_amended_tags
    (.obj [("metadata", .obj [("tags", .arr [.str "b", .str "a"])])])
    (.obj [("tags", .arr [.str "b", .str "a"])])
    (.arr [.str "b", .str "a"])
    { name := "<unknown>", kind := "<unknown>", owner := "<unknown>",
      tags := "a;b", location := "<unknown>" }
    rfl rfl rfl).1

lemma pyGet_ok_of_obj (v : JVal) (h : isObjB v = true) (k : String) (d : JVal) :
    ∃ w, pyGet v k d = .ok w := by
  cases v <;> simp [isObjB] at h
  exact ⟨_, rfl⟩

lemma safeUnder_pyOr (v : JVal) (h : safeUnder v = true) :
    isObjB (pyOr v (.obj [])) = true := by
  unfold pyOr
  by_cases ht : truthy v
  · simp only [ht, if_true]
    simpa [safeUnder, ht] using h
  · simp [ht, isObjB]

lemma getOr_obj (kvs : List (String × JVal)) (k : String)
    (h : (match kvs.lookup k with | none => true | some v => safeUnder v) = true) :
    ∃ m, (pyGet (.obj kvs) k (.obj [])).map (fun v => pyOr v (.obj [])) = .ok m ∧
      isObjB m = true := by
  rw [pyGet_obj]
  cases hl : kvs.lookup k with
  | none => exact ⟨.obj [], rfl, rfl⟩
  | some v =>
    rw [hl] at h
    exact ⟨pyOr v (.obj []), rfl, safeUnder_pyOr v h⟩

lemma metadataOf_case (kvs : List (String × JVal))
    (h : (match kvs.lookup "metadata" with
          | none => true
          | some (.obj md) => !true ||
              (match md.lookup "annotations" with
               | none => true
               | some v => safeUnder v)
          | some _ => false) = true) :
    ∃ md, metadataOf (.obj kvs) = .ok (.obj md) ∧
      (match md.lookup "annotations" with
       | none => true
       | some v => safeUnder v) = true := by
  unfold metadataOf
  rw [pyGet_obj]
  cases hl : kvs.lookup "metadata" with
  | none => exact ⟨[], rfl, rfl⟩
  | some v =>
    rw [hl] at h
    cases v <;> simp only [Bool.not_true, Bool.false_or] at h
    case obj md =>
      by_cases ht : truthy (.obj md)
      · exact ⟨md, by simp [pyOr, ht, Except.map], h⟩
      · exact ⟨[], by simp [pyOr, ht, Except.map], rfl⟩
    all_goals exact absurd h (by simp)

lemma ownerChain_ok (spec anns : JVal) (hs : isObjB spec = true) (ha : isObjB anns = true) :
    ∃ v, ownerChain spec anns = .ok v := by
  obtain ⟨so, hso⟩ := pyGet_ok_of_obj spec hs "owner" .null
  obtain ⟨ao, hao⟩ := pyGet_ok_of_obj anns ha "backstage.io/owner" .null
  obtain ⟨aob, haob⟩ := pyGet_ok_of_obj anns ha "backstage.io/owned-by" .null
  exact ⟨ownerSpecAmended so ao aob, ownerChain_eq spec anns so ao aob hso hao haob⟩

lemma locationChain_ok (anns : JVal) (ha : isObjB anns = true) :
    ∃ v, locationChain anns = .ok v := by
  obtain ⟨v1, h1⟩ := pyGet_ok_of_obj anns ha "backstage.io/origin-location" .null
  obtain ⟨v2, h2⟩ := pyGet_ok_of_obj anns ha "backstage.io/managed-by-location" .null
  obtain ⟨v3, h3⟩ := pyGet_ok_of_obj anns ha "backstage.io/location" .null
  by_cases t1 : truthy v1
  · exact ⟨v1, by unfold locationChain; simp [h1, t1]⟩
  · by_cases t2 : truthy v2
    · exact ⟨v2, by unfold locationChain; simp [h1, t1, h2, t2]⟩
    · by_cases t3 : truthy v3
      · exact ⟨v3, by unfold locationChain; simp [h1, t1, h2, t2, h3, t3]⟩
      · exact ⟨.str "<unknown>", by unfold locationChain; simp [h1, t1, h2, t2, h3, t3]⟩

lemma build_entity_row_ok (kvs : List (String × JVal))
    (h : wellShaped true (.obj kvs) = true) :
    ∃ r, build_entity_row (.obj kvs) = .ok r := by
  unfold wellShaped at h
  simp only [Bool.not_true, Bool.false_or, Bool.and_eq_true] at h
  obtain ⟨h1, h2⟩ := h
  obtain ⟨md, hmd, hanncond⟩ := metadataOf_case kvs (by simpa using h1)
  obtain ⟨sp, hsp, hspo⟩ := getOr_obj kvs "spec" h2
  obtain ⟨anns, hann, hanno⟩ := getOr_obj md "annotations" hanncond
  obtain ⟨ow, how⟩ := ownerChain_ok sp anns hspo hanno
  obtain ⟨lc, hlc⟩ := locationChain_ok anns hanno
  cases hb : build_entity_row (.obj kvs) with
  | ok r => exact ⟨r, rfl⟩
  | error e =>
    exfalso
    simp only [pyGet_obj] at hsp hann
    unfold build_entity_row at hb
    simp only [specOf, annotationsOfMd, hmd, hsp, hann, pyGet_obj, how, hlc] at hb
    exact Except.noConfusion hb

lemma processOrphan_ok (args : Args) (dOk : String → Bool) (base_url : String)
    (st : St) (o : JVal)
    (h : wellShaped args.csv_output o = true) :
    ∃ st2, processOrphan args dOk base_url st o = .ok st2 := by
  cases o with
  | null => simp [wellShaped] at h
  | bool b => simp [wellShaped] at h
  | num n => simp [wellShaped] at h
  | str v => simp [wellShaped] at h
  | arr xs => simp [wellShaped] at h
  | obj kvs =>
    have hmdcond : (match kvs.lookup "metadata" with
        | none => true
        | some (.obj _) => true
        | some _ => false) = true := by
      unfold wellShaped at h
      rw [Bool.and_eq_true] at h
      have h1 := h.1
      cases hl : kvs.lookup "metadata" with
      | none => rfl
      | some v =>
        rw [hl] at h1
        cases v <;> simp_all
    have hmdl : ∃ mdl : List (String × JVal),
        (kvs.lookup "metadata").getD (.obj []) = .obj mdl := by
      cases hl : kvs.lookup "metadata" with
      | none => exact ⟨[], rfl⟩
      | some v =>
        rw [hl] at hmdcond
        cases v <;> simp_all
    obtain ⟨mdl, hmdl⟩ := hmdl
    have hn : entityName (.obj kvs) = .ok ((mdl.lookup "name").getD (.str "<unknown>")) := by
      unfold entityName
      rw [pyGet_obj, hmdl]
      rfl
    have hk : entityKind (.obj kvs) = .ok ((kvs.lookup "kind").getD (.str "<unknown>")) := by
      unfold entityKind
      rw [pyGet_obj]
    have hu : entityUid (.obj kvs) = .ok ((mdl.lookup "uid").getD .null) := by
      unfold entityUid
      rw [pyGet_obj, hmdl]
      rfl
    have hr : ∃ row, rowOpt args.csv_output (.obj kvs) = .ok row := by
      by_cases hc : args.csv_output = true
      · rw [hc] at h
        obtain ⟨r, hb⟩ := build_entity_row_ok kvs h
        exact ⟨some r, by simp [rowOpt, hc, hb]⟩
      · exact ⟨none, by simp [rowOpt, hc]⟩
    obtain ⟨row, hr⟩ := hr
    unfold processOrphan
    simp only [hn, hk, hu, hr]
    by_cases ht : truthy ((mdl.lookup "uid").getD .null) = false
    · rw [if_pos ht]
      exact ⟨_, rfl⟩
    · rw [if_neg ht]
      by_cases hd : args.dry_run = true
      · rw [if_pos hd]
        exact ⟨_, rfl⟩
      · rw [if_neg hd]
        by_cases hw : dOk (delete_url base_url ((mdl.lookup "uid").getD .null)) = true
        · rw [if_pos hw]
          exact ⟨_, rfl⟩
        · rw [if_neg hw]
          exact ⟨_, rfl⟩

lemma runLoop_ok (args : Args) (dOk : String → Bool) (base_url : String) :
    ∀ (os : List JVal) (st : St), (∀ o ∈ os, wellShaped args.csv_output o = true) →
      (runLoop args dOk base_url os st).2 = none
  | [], _, _ => rfl
  | o :: os, st, h => by
    obtain ⟨st2, h2⟩ := processOrphan_ok args dOk base_url st o (h o (List.mem_cons_self o os))
    unfold runLoop
    rw [h2]
    exact runLoop_ok args dOk base_url os st2 (fun x hx => h x (List.mem_cons_of_mem o hx))

/-- Claim C4 is false as stated: a fetched JSON array may contain
non-object elements, and on such an element the field extraction in the
loop raises an uncaught AttributeError that propagates past the loop and
aborts the run — here the single entity `1`. -/
theorem claim4_counterexample :
    (mainRun {} (fun _ => true) (.parsed (.arr [.num 1]))).exit = .exc .attributeError := by
  rfl

/-- Claim C4 (amended): errors are resolved at the point of occurrence
only for well-shaped entities.  When every fetched entity is a JSON
object whose `metadata` (if present) is a dict and — when reporting is
enabled — whose `spec` and `metadata.annotations` (if present) are falsy
or dicts, no exception escapes the loop: missing uids and delete
failures (the oracle `dOk` is arbitrary) are handled in place and the
run exits 0.  Field extraction on other entities raises an uncaught
AttributeError that aborts the run (see the counterexample). -/
theorem claim4_amended_loop_resolves_errors (args : Args) (dOk : String → Bool)
    (orphans : List JVal)
    (h : ∀ o ∈ orphans, wellShaped args.csv_output o = true) :
    (mainRun args dOk (.parsed (.arr orphans))).exit = .code 0 := by
  unfold mainRun
  simp only [fetch_orphans]
  by_cases he : orphans.isEmpty
  · simp [he]
  · rcases hr : runLoop args dOk (rstripSlashes args.base_url) orphans {} with ⟨st, e?⟩
    have h2 := runLoop_ok args dOk (rstripSlashes args.base_url) orphans {} h
    rw [hr] at h2
    subst h2
    simp [he, hr]

/-- Witness for the amended C4: one well-shaped entity whose DELETE fails
(the oracle always answers failure); the run still exits 0. -/
theorem claim4_witness :
    (mainRun { csv_output := true } (fun _ => false)
        (.parsed (.arr [.obj [("metadata", .obj [("name", .str "svc1"), ("uid", .str "u1")]),
          ("kind", .str "Component")]]))).exit = .code 0 :=
  claim4_amended_loop_resolves_errors { csv_output := true } (fun _ => false)
    [.obj [("metadata", .obj [("name", .str "svc1"), ("uid", .str "u1")]),
      ("kind", .str "Component")]]
    (by decide)

lemma processOrphan_rows_len (args : Args) (dOk : String → Bool) (base_url : String)
    (st : St) (o : JVal) (st2 : St)
    (hcsv : args.csv_output = true)
    (h : processOrphan args dOk base_url st o = .ok st2) :
    st2.rows.length = st.rows.length +
      (if entCounted args dOk base_url o then 1 else 0) := by
  unfold processOrphan at h
  cases hn : entityName o with
  | error e =>
    simp only [hn] at h
    exact Except.noConfusion h
  | ok n =>
  simp only [hn] at h
  cases hk : entityKind o with
  | error e =>
    simp only [hk] at h
    exact Except.noConfusion h
  | ok k =>
  simp only [hk] at h
  cases hu : entityUid o with
  | error e =>
    simp only [hu] at h
    exact Except.noConfusion h
  | ok u =>
  simp only [hu] at h
  by_cases ht : truthy u = false
  · rw [if_pos ht] at h
    injection h with h2
    subst h2
    simp [entCounted, hu, ht]
  · rw [if_neg ht] at h
    have ht2 : truthy u = true := by
      rcases hx : truthy u with _ | _
      · exact absurd hx ht
      · rfl
    cases hr : rowOpt args.csv_output o with
    | error e =>
      simp only [hr] at h
      exact Except.noConfusion h
    | ok row =>
    simp only [hr] at h
    have hrow : ∃ r, row = some r := by
      rw [hcsv] at hr
      unfold rowOpt at hr
      simp only [if_true] at hr
      cases hbb : build_entity_row o with
      | error e =>
        simp only [hbb] at hr
        exact Except.noConfusion hr
      | ok r =>
        simp only [hbb] at hr
        injection hr with hr2
        exact ⟨r, hr2.symm⟩
    obtain ⟨r, rfl⟩ := hrow
    by_cases hd : args.dry_run = true
    · rw [if_pos hd] at h
      injection h with h2
      subst h2
      simp [entCounted, hu, ht2, hd]
    · rw [if_neg hd] at h
      have hd2 : args.dry_run = false := by
        rcases hx : args.dry_run with _ | _
        · rfl
        · exact absurd hx hd
      by_cases hw : dOk (delete_url base_url u) = true
      · rw [if_pos hw] at h
        injection h with h2
        subst h2
        simp [entCounted, hu, ht2, hd2, hw]
      · rw [if_neg hw] at h
        injection h with h2
        subst h2
        have hw2 : dOk (delete_url base_url u) = false := by
          rcases hx : dOk (delete_url base_url u) with _ | _
          · rfl
          · exact absurd hx hw
        simp [entCounted, hu, ht2, hd2, hw2]

lemma runLoop_rows_len (args : Args) (dOk : String → Bool) (base_url : String)
    (hcsv : args.csv_output = true) :
    ∀ (os : List JVal) (st : St), (runLoop args dOk base_url os st).2 = none →
      ((runLoop args dOk base_url os st).1).rows.length =
        st.rows.length + os.countP (entCounted args dOk base_url)
  | [], st, _ => by simp [runLoop]
  | o :: os, st, h => by
    unfold runLoop at h ⊢
    cases hp : processOrphan args dOk base_url st o with
    | error e =>
      simp only [hp] at h
      exact Option.noConfusion h
    | ok st2 =>
      simp only [hp] at h ⊢
      have ih := runLoop_rows_len args dOk base_url hcsv os st2 h
      rw [ih, processOrphan_rows_len args dOk base_url st o st2 hcsv hp, List.countP_cons]
      by_cases hc : entCounted args dOk base_url o = true
      all_goals simp [hc]
      all_goals omega

/-- Claim C5: when CSV reporting is enabled and a report is written, its
record count is one (the header) plus the number of fetched entities
whose uid is truthy and that were either dry-run-captured or whose
DELETE succeeded; entities skipped for a missing uid and entities whose
delete failed contribute no row, and a failed delete (the oracle `dOk`
is arbitrary) does not stop processing of later entities. -/
theorem claim5_csv_row_count (args : Args) (dOk : String → Bool) (orphans : List JVal)
    (lines : List (List String))
    (hcsv : args.csv_output = true)
    (hout : (mainRun args dOk (.parsed (.arr orphans))).csv = some lines) :
    lines.length = 1 + orphans.countP (entCounted args dOk (rstripSlashes args.base_url)) := by
  unfold mainRun at hout
  simp only [fetch_orphans] at hout
  by_cases he : orphans.isEmpty
  · simp [he] at hout
  · rcases hr : runLoop args dOk (rstripSlashes args.base_url) orphans {} with ⟨st, e?⟩
    cases e? with
    | some e => simp [he, hr] at hout
    | none =>
      simp only [he, hr, if_false, hcsv, if_true, Bool.false_eq_true] at hout
      have hl : lines = write_csv st.rows := by
        injection hout with h2
        exact h2.symm
      have hcount := runLoop_rows_len args dOk (rstripSlashes args.base_url) hcsv orphans {}
        (by rw [hr])
      rw [hr] at hcount
      have hlen := (stableSort_perm rowLe st.rows).length_eq
      rw [hl]
      unfold write_csv sortRows
      simp only [List.length_cons, List.length_map]
      rw [hlen]
      simp only [hcount]
      simp [St]
      omega

/-- Witness for C5: two fetched entities — one deletable with uid `u1`,
one without a uid — produce a report of one header and one row. -/
theorem claim5_witness :
    ([["name", "kind", "owner", "tags", "location"],
      ["svc1", "Component", "<unknown>", "", "<unknown>"]] : List (List String)).length =
      1 + List.countP (entCounted { csv_output := true } (fun _ => true)
            (rstripSlashes ({ csv_output := true } : Args).base_url))
          [.obj [("metadata", .obj [("name", .str "svc1"), ("uid", .str "u1")]),
             ("kind", .str "Component")],
           .obj [("metadata", .obj [("name", .str "noid")])]] :=
  claim5_csv_row_count { csv_output := true } (fun _ => true)
    [.obj [("metadata", .obj [("name", .str "svc1"), ("uid", .str "u1")]),
       ("kind", .str "Component")],
     .obj [("metadata", .obj [("name", .str "noid")])]]
    [["name", "kind", "owner", "tags", "location"],
     ["svc1", "Component", "<unknown>", "", "<unknown>"]]
    rfl rfl

/-- Claim C6 is false as stated: with `--csv-output` requested and a
fetch returning the empty array, `main` returns before the report writer
runs, so no CSV file (not even a header-only one) is written. -/
theorem claim6_counterexample :
    (mainRun { csv_output := true } (fun _ => true) (.parsed (.arr []))).csv = none := by
  rfl

/-- Claim C6 (amended): whenever CSV reporting is requested, the fetched
array is nonempty and the run completes normally (exit code 0), a CSV
file is written whose first record is the fixed header
`name,kind,owner,tags,location`, even when zero rows were captured;
however, when the fetch returns an empty array the function returns
before the report writer and no CSV is written at all (see the
counterexample). -/
theorem claim6_amended_header_always_written (args : Args) (dOk : String → Bool)
    (o : JVal) (os : List JVal)
    (hcsv : args.csv_output = true)
    (hexit : (mainRun args dOk (.parsed (.arr (o :: os)))).exit = .code 0) :
    ∃ rest, (mainRun args dOk (.parsed (.arr (o :: os)))).csv = some (fieldnames :: rest) := by
  unfold mainRun at hexit ⊢
  simp only [fetch_orphans, List.isEmpty_cons, if_false, Bool.false_eq_true] at hexit ⊢
  rcases hr : runLoop args dOk (rstripSlashes args.base_url) (o :: os) {} with ⟨st, e?⟩
  cases e? with
  | some e =>
    rw [hr] at hexit
    exact absurd hexit (by simp)
  | none =>
    refine ⟨(sortRows st.rows).map (fun r => [r.name, r.kind, r.owner, r.tags, r.location]), ?_⟩
    show (if args.csv_output = true then some (write_csv st.rows) else none) =
      some (fieldnames :: (sortRows st.rows).map (fun r => [r.name, r.kind, r.owner, r.tags, r.location]))
    rw [if_pos hcsv]
    rfl

/-- Witness for the amended C6: one entity without a uid — zero rows are
captured, yet a header-only CSV is written. -/
theorem claim6_witness :
    (mainRun { csv_output := true } (fun _ => true)
        (.parsed (.arr [.obj [("metadata", .obj [("name", .str "x")])]]))).exit = .code 0 ∧
    ∃ rest, (mainRun { csv_output := true } (fun _ => true)
        (.parsed (.arr [.obj [("metadata", .obj [("name", .str "x")])]]))).csv =
      some (fieldnames :: rest) :=
  ⟨rfl, claim6_amended_header_always_written { csv_output := true } (fun _ => true)
    (.obj [("metadata", .obj [("name", .str "x")])]) [] rfl rfl⟩
